import Mathlib

/-!
# Verification of `virttest/libvirt_cgroup.py` (avocado-vt)

A shallow embedding of the cgroup standardization logic of
`virttest/libvirt_cgroup.py` together with proofs about the claims of the
specification.

Modelling conventions:
* Python `dict`s are insertion-ordered association lists (`List (κ × α)`);
  assignment to an existing key updates it in place, assignment to a fresh
  key appends at the end (CPython 3.7+ semantics).
* Filesystem reads are abstracted into explicit parameters: a function from
  the (joined) file path, or file name, to the file's content.  Subprocess
  calls (page size detection, scheduler detection) are likewise parameters.
* Python exceptions (`IndexError`, `ValueError`, `TypeError`, `KeyError`)
  are modelled with `Except String`; Python `None` is modelled explicitly
  (`CgVal.s0` as a dict value, `CgKey.n0` as a dict key), since the source
  really does use `None` as a dict key when a device path cannot be
  resolved.
* Python string primitives (`strip`, `split`, substring test, `isdigit`,
  `int(...)`) are re-implemented over `List Char`/`String` following their
  CPython semantics restricted to ASCII input, which is all this code
  handles.
-/

namespace LibvirtCgroup

/-! ## Association-list dictionaries (Python `dict` semantics) -/

/-- `d[k] = v`: update in place if `k` is present, else append at the end. -/
def alistSet {κ α : Type} [DecidableEq κ] : List (κ × α) → κ → α → List (κ × α)
  | [], k, v => [(k, v)]
  | (k', v') :: rest, k, v =>
      if k' = k then (k, v) :: rest else (k', v') :: alistSet rest k v

/-- `d.get(k)` / `k in d`: first (only) binding of `k`. -/
def alistGet? {κ α : Type} [DecidableEq κ] : List (κ × α) → κ → Option α
  | [], _ => none
  | (k', v') :: rest, k => if k' = k then some v' else alistGet? rest k

/-! ## Python string primitives -/

/-- Python `str.strip()` on the character list (ASCII whitespace). -/
def pyStripChars (s : List Char) : List Char :=
  ((s.dropWhile Char.isWhitespace).reverse.dropWhile Char.isWhitespace).reverse

/-- Python `str.strip()`. -/
def pyStrip (s : String) : String := ⟨pyStripChars s.data⟩

/-- Python `str.strip(c)` for a single character `c` (used as `strip("/")`). -/
def pyStripChar (c : Char) (s : String) : String :=
  ⟨((s.data.dropWhile (· = c)).reverse.dropWhile (· = c)).reverse⟩

/-- Split a character list at every separator position (`p` true): keeps
empty pieces, splitting the empty list gives `[[]]`. -/
def pySplitP (p : Char → Bool) : List Char → List (List Char)
  | [] => [[]]
  | c :: rest =>
      match pySplitP p rest with
      | [] => [[]]
      | x :: xs => if p c then [] :: x :: xs else (c :: x) :: xs

/-- Python `str.split(sep)` for a one-character separator: keeps empty
pieces, `"".split(sep) == [""]`. -/
def pySplitChar (sep : Char) (s : List Char) : List (List Char) :=
  pySplitP (fun c => c = sep) s

/-- Python `str.split(sep)` on `String`s, one-character separator. -/
def pySplitOnChar (sep : Char) (s : String) : List String :=
  (pySplitChar sep s.data).map (fun l => ⟨l⟩)

/-- Python `str.split()` (no argument): split on whitespace runs, dropping
empty pieces. -/
def pySplitWs (s : String) : List String :=
  ((pySplitP Char.isWhitespace s.data).filter (fun l => !l.isEmpty)).map
    (fun l => ⟨l⟩)

/-- `needle.isPrefixOf hay` as plain recursion (so we can reason about it). -/
def startsWith (needle : List Char) : List Char → Bool
  | [] => needle.isEmpty
  | c :: rest =>
      match needle with
      | [] => true
      | n :: ns => n = c && startsWith ns rest

/-- Python `needle in hay` (substring containment) on character lists. -/
def hasSub (needle : List Char) : List Char → Bool
  | [] => needle.isEmpty
  | c :: rest => startsWith needle (c :: rest) || hasSub needle rest

/-- Python `needle in hay` on `String`s. -/
def pyContains (hay needle : String) : Bool := hasSub needle.data hay.data

/-- Prefix of `s` before the first occurrence of the (nonempty) pattern
`pat`; this is Python `s.split(pat)[0]`. -/
def takeBeforeSub (pat : List Char) : List Char → List Char
  | [] => []
  | c :: rest =>
      if startsWith pat (c :: rest) then [] else c :: takeBeforeSub pat rest

/-- Python `s.split(pat)[0]` on `String`s. -/
def pySplitFirst (s pat : String) : String := ⟨takeBeforeSub pat.data s.data⟩

/-- Python `str.isdigit()` (ASCII): nonempty and all decimal digits. -/
def pyIsDigit (s : String) : Bool := !s.data.isEmpty && s.data.all Char.isDigit

/-- Decimal value of a digit list (most significant first). -/
def listDigitsToNat (l : List Char) : Nat :=
  l.foldl (fun n c => n * 10 + (c.toNat - 48)) 0

/-- Decimal value of a digit string. -/
def digitsToNat (s : String) : Nat := listDigitsToNat s.data

/-- Python `int(s)`: strip whitespace, optional sign, nonempty digit run;
anything else raises `ValueError`, modelled as `none`. -/
def pyInt (s : String) : Option Int :=
  match (pyStrip s).data with
  | [] => none
  | '+' :: ds =>
      if !ds.isEmpty && ds.all Char.isDigit then some (listDigitsToNat ds : Int)
      else none
  | '-' :: ds =>
      if !ds.isEmpty && ds.all Char.isDigit then some (-(listDigitsToNat ds : Int))
      else none
  | ds =>
      if ds.all Char.isDigit then some (listDigitsToNat ds : Int) else none

/-- Python `str.replace(pat, rep)` on character lists, fuelled so that the
recursion is structural: replace each non-overlapping occurrence left to
right (nonempty `pat`). -/
def pyReplaceAux (pat rep : List Char) : Nat → List Char → List Char
  | _, [] => []
  | 0, s => s
  | fuel + 1, c :: rest =>
      if startsWith pat (c :: rest) && !pat.isEmpty then
        rep ++ pyReplaceAux pat rep fuel (rest.drop (pat.length - 1))
      else c :: pyReplaceAux pat rep fuel rest

/-- Python `str.replace(pat, rep)`; the fuel `s.length` is always enough
since every step consumes at least one character. -/
def pyReplace (s pat rep : String) : String :=
  ⟨pyReplaceAux pat.data rep.data s.data.length s.data⟩

/-- Python `str.lower()` on a character (ASCII). -/
def pyLowerChar (c : Char) : Char :=
  if 'A' ≤ c ∧ c ≤ 'Z' then Char.ofNat (c.toNat + 32) else c

/-- Python `str.lower()` (ASCII). -/
def pyLower (s : String) : String := ⟨s.data.map pyLowerChar⟩

/-- `os.path.join(a, b)` restricted to the shapes this module produces. -/
def os_path_join (a b : String) : String :=
  if b.data.head? = some '/' then b
  else if a = "" ∨ a.data.getLast? = some '/' then a ++ b
  else a ++ "/" ++ b

/-- Last `/`-separated segment of a path string. -/
def lastSegment (s : String) : String :=
  ⟨(s.data.reverse.takeWhile (· ≠ '/')).reverse⟩

/-! ## The Python value/key model

Dict values in the standardized maps are strings, `None`, or nested
per-device dicts; dict keys are strings or `None` (the device-number key
really can be `None`, see `__get_dev_major_minor`). -/

/-- A per-device sub-map, e.g. `{"riops": "500", "wiops": "max", ...}`. -/
abbrev DevMap := List (String × String)

/-- A Python value stored in a standardized cgroup dict. -/
inductive CgVal where
  /-- A string value. -/
  | s (v : String)
  /-- Python `None` stored as a value. -/
  | s0
  /-- A nested per-device dict. -/
  | d (m : DevMap)
deriving DecidableEq, Repr

/-- A Python dict key in a standardized cgroup dict. -/
inductive CgKey where
  /-- A string key. -/
  | s (k : String)
  /-- Python `None` used as a key. -/
  | n0
deriving DecidableEq, Repr

/-! ## Schema tables (insertion order of the Python module-level dicts) -/

/-- `VIRSH_BLKIOTUNE_OUTPUT_MAPPING`. -/
def VIRSH_BLKIOTUNE_OUTPUT_MAPPING : List (String × String) :=
  [("weight", "weight"),
   ("device_read_iops_sec", "riops"),
   ("device_write_iops_sec", "wiops"),
   ("device_read_bytes_sec", "rbps"),
   ("device_write_bytes_sec", "wbps")]

/-- `CGROUP_V1_MEM_FILE_MAPPING`. -/
def CGROUP_V1_MEM_FILE_MAPPING : List (String × String) :=
  [("hard_limit", "memory.limit_in_bytes"),
   ("soft_limit", "memory.soft_limit_in_bytes"),
   ("swap_hard_limit", "memory.memsw.limit_in_bytes")]

/-- `CGROUP_V2_MEM_FILE_MAPPING`. -/
def CGROUP_V2_MEM_FILE_MAPPING : List (String × String) :=
  [("hard_limit", "memory.max"),
   ("soft_limit", "memory.high"),
   ("swap_hard_limit", "memory.swap.max")]

/-- `CGROUP_V1_SCHEDINFO_FILE_MAPPING`. -/
def CGROUP_V1_SCHEDINFO_FILE_MAPPING : List (String × String) :=
  [("cpu_shares", "cpu.shares"),
   ("vcpu_period", "<vcpuX>/cpu.cfs_period_us"),
   ("vcpu_quota", "<vcpuX>/cpu.cfs_quota_us"),
   ("emulator_period", "emulator/cpu.cfs_period_us"),
   ("emulator_quota", "emulator/cpu.cfs_quota_us"),
   ("global_period", "cpu.cfs_period_us"),
   ("global_quota", "cpu.cfs_quota_us"),
   ("iothread_period", "<iothreadX>/cpu.cfs_period_us"),
   ("iothread_quota", "<iothreadX>/cpu.cfs_quota_us")]

/-- `CGROUP_V2_SCHEDINFO_FILE_MAPPING`. -/
def CGROUP_V2_SCHEDINFO_FILE_MAPPING : List (String × String) :=
  [("cpu_shares", "cpu.weight"),
   ("vcpu_period", "<vcpuX>/cpu.max"),
   ("vcpu_quota", "<vcpuX>/cpu.max"),
   ("emulator_period", "emulator/cpu.max"),
   ("emulator_quota", "emulator/cpu.max"),
   ("global_period", "cpu.max"),
   ("global_quota", "cpu.max"),
   ("iothread_period", "<iothreadX>/cpu.max"),
   ("iothread_quota", "<iothreadX>/cpu.max")]

/-- The fresh per-device sub-map `dev_init_dict` (insertion order). -/
def dev_init_dict : DevMap :=
  [("rbps", "max"), ("wbps", "max"), ("riops", "max"), ("wiops", "max")]

/-! ## `__get_dev_major_minor`

The filesystem is abstracted as `env : String → Option (Nat × Nat)`:
`env p = none` models a nonexistent path, `env p = some (major, minor)`
models `os.stat(p).st_rdev` decomposed by `os.major`/`os.minor`. -/

/-- `CgroupTest.__get_dev_major_minor`: `None` if the path does not exist,
else the `"major:minor"` string. -/
def get_dev_major_minor (env : String → Option (Nat × Nat)) (dev_path : String) :
    Option String :=
  match env dev_path with
  | none => none
  | some (ma, mi) => some (toString ma ++ ":" ++ toString mi)

/-! ## `get_cgroup_path`, cgroup-v2 branch

`cg_mount_point` and `cg_vm_scope` are the first regex captures from
`/proc/mounts` and `/proc/<pid>/cgroup`; the existence check at the end of
the Python function is outside this pure fragment. -/

/-- The v2 path computation of `CgroupTest.get_cgroup_path`:
`os.path.join(mount, scope.strip("/"))`, then `+ "/.."` whenever the
substring `"emulator"` occurs anywhere in the joined path. -/
def get_cgroup_path_v2 (cg_mount_point cg_vm_scope : String) : String :=
  let cgroup_path := os_path_join cg_mount_point (pyStripChar '/' cg_vm_scope)
  if pyContains cgroup_path "emulator" then cgroup_path ++ "/.." else cgroup_path

/-! ## `__get_standardized_cgroup1_info` -/

/-- `__get_cg_file_path`: `weight`/`cpu_shares` files are looked up above
any `"libvirt"` segment of the cgroup path. -/
def get_cg_file_path (cg_key cg_path cg_file_name : String) : String :=
  if (cg_key = "weight" ∨ cg_key = "cpu_shares") ∧ pyContains cg_path "libvirt"
  then os_path_join (pySplitFirst cg_path "libvirt") cg_file_name
  else os_path_join cg_path cg_file_name

/-- State of the v1 blkiotune loop: the dict under construction plus the
`dev_list` bookkeeping list. -/
structure Blkio1St where
  /-- `standardized_cgroup_info`. -/
  info : List (String × CgVal)
  /-- `dev_list`. -/
  dev_list : List String
deriving DecidableEq, Repr

/-- One line of a v1 per-device throttle file:
`dev_info = line.strip().split()`, seed `dev_init_dict` for an unseen
device, then `standardized_cgroup_info[dev_num][cg_key] = dev_info[1]`.
Fewer than two tokens raise `IndexError`; a non-dict entry under `dev_num`
would raise `TypeError`. -/
def blkio1_line (cg_key : String) (st : Blkio1St) (line : String) :
    Except String Blkio1St :=
  match pySplitWs (pyStrip line) with
  | dev_num :: dev_cg_value :: _ =>
      let info1 := if dev_num ∈ st.dev_list then st.info
                   else alistSet st.info dev_num (CgVal.d dev_init_dict)
      match alistGet? info1 dev_num with
      | some (CgVal.d m) =>
          Except.ok ⟨alistSet info1 dev_num (CgVal.d (alistSet m cg_key dev_cg_value)),
                     st.dev_list ++ [dev_num]⟩
      | _ => Except.error "TypeError"
  | _ => Except.error "IndexError"

/-- Contents of the v1 blkio control files, keyed by canonical attribute
(the file-name indirection through `CGROUP_V1_BLKIO_FILE_MAPPING` — and its
non-bfq in-place patch — only changes which file is opened, not the parsed
shape, so the reader is parameterized by content per attribute). -/
structure BlkioV1Files where
  /-- Content of the weight file (`blkio.bfq.weight` or `blkio.weight`). -/
  weight : String
  /-- Lines of `blkio.weight_device` (read only when not bfq). -/
  weight_device : List String
  /-- Lines of `blkio.throttle.read_bps_device`. -/
  rbps : List String
  /-- Lines of `blkio.throttle.write_bps_device`. -/
  wbps : List String
  /-- Lines of `blkio.throttle.read_iops_device`. -/
  riops : List String
  /-- Lines of `blkio.throttle.write_iops_device`. -/
  wiops : List String

/-- The `virsh_cmd == "blkiotune"` branch of
`__get_standardized_cgroup1_info`.  Iteration follows the insertion order
of `CGROUP_V1_BLKIO_FILE_MAPPING`: `weight`, `wiops`, `riops`, `rbps`,
`wbps`, then `weight_device` (appended by the non-bfq patch). -/
def get_standardized_cgroup1_blkiotune (is_bfq : Bool) (files : BlkioV1Files) :
    Except String (List (String × CgVal)) :=
  let st1 : Blkio1St := ⟨alistSet [] "weight" (CgVal.s (pyStrip files.weight)), []⟩
  Except.bind (files.wiops.foldlM (blkio1_line "wiops") st1) fun st2 =>
  Except.bind (files.riops.foldlM (blkio1_line "riops") st2) fun st3 =>
  Except.bind (files.rbps.foldlM (blkio1_line "rbps") st3) fun st4 =>
  Except.bind (files.wbps.foldlM (blkio1_line "wbps") st4) fun st5 =>
  Except.bind (if is_bfq then Except.ok st5
               else files.weight_device.foldlM (blkio1_line "weight_device") st5)
    fun st6 =>
  Except.ok st6.info

/-- The `virsh_cmd == "memtune"` branch of
`__get_standardized_cgroup1_info`; `content` maps a memory control file
name to its content, `page_size` is the `getconf PAGE_SIZE` result. -/
def get_standardized_cgroup1_memtune (page_size : Nat) (content : String → String) :
    List (String × String) :=
  let max_mem_value := if page_size = 65536 then "9223372036854710272"
                       else "9223372036854771712"
  CGROUP_V1_MEM_FILE_MAPPING.foldl
    (fun st kf =>
      let v := pyStrip (content kf.2)
      let v := if v = max_mem_value then "max" else v
      alistSet st kf.1 v) []

/-- Placeholder substitution for a schedinfo file template: `<vcpuX>` is
replaced by the first vcpu dir (`IndexError` when there is none); an entry
with `<iothreadX>` is skipped (`none`) when `__get_cpu_subdirs` found no
iothread dirs. -/
def substPlaceholders (vcpu_dirs : List String)
    (iothread_dirs : Option (List String)) (tmpl : String) :
    Except String (Option String) := do
  let t1 ← if pyContains tmpl "<vcpuX>" then
      match vcpu_dirs with
      | [] => Except.error "IndexError"
      | d :: _ => pure (pyReplace tmpl "<vcpuX>" d)
    else pure tmpl
  if pyContains t1 "<iothreadX>" then
    match iothread_dirs with
    | some (d :: _) => pure (some (pyReplace t1 "<iothreadX>" d))
    | _ => pure none
  else pure (some t1)

/-- The per-value standardization of the v1 schedinfo branch: the `"-1"`
pre-mapping applies to every key, the two large sentinels additionally map
to `"max"` for keys containing `"quota"`. -/
def sched1_value (cg_key raw : String) : String :=
  let cg_file_value := pyStrip raw
  let cg_file_value := if cg_file_value = "-1" then "max" else cg_file_value
  if pyContains cg_key "quota" &&
     (cg_file_value = "-1" || cg_file_value = "18446744073709551" ||
      cg_file_value = "17592186044415")
  then "max" else cg_file_value

/-- The `virsh_cmd == "schedinfo"` branch of
`__get_standardized_cgroup1_info`.  `cgroup_path` is the resolved
`cpu,cpuacct` path plus `"/.."`; `content` maps a joined file path to the
file's content. -/
def get_standardized_cgroup1_schedinfo (cgroup_path : String)
    (vcpu_dirs : List String) (iothread_dirs : Option (List String))
    (content : String → String) : Except String (List (String × String)) :=
  CGROUP_V1_SCHEDINFO_FILE_MAPPING.foldlM
    (fun st kf => do
      match ← substPlaceholders vcpu_dirs iothread_dirs kf.2 with
      | none => pure st
      | some cg_file_name =>
          let cg_file_path := get_cg_file_path kf.1 cgroup_path cg_file_name
          pure (alistSet st kf.1 (sched1_value kf.1 (content cg_file_path)))) []

/-! ## `__get_standardized_cgroup2_info` -/

/-- `re.search(r"\d+", s)`: the first maximal digit run, or `None`. -/
def re_search_digits : List Char → Option (List Char)
  | [] => none
  | c :: rest =>
      if c.isDigit then some (c :: rest.takeWhile Char.isDigit)
      else re_search_digits rest

/-- The `virsh_cmd == "blkiotune"` branch of
`__get_standardized_cgroup2_info`: the weight is the first digit run of the
weight file (stored as Python `None` when there is no match); each `io.max`
line `"<dev> key=value ..."` becomes a fresh per-device dict of exactly the
`key=value` pairs present on the line — no `"max"` defaults are seeded. -/
def get_standardized_cgroup2_blkiotune (weight_file : String)
    (iomax_lines : List String) : Except String (List (String × CgVal)) := do
  let weight_value := match re_search_digits weight_file.data with
                      | some g => CgVal.s ⟨g⟩
                      | none => CgVal.s0
  let st0 := alistSet ([] : List (String × CgVal)) "weight" weight_value
  iomax_lines.foldlM
    (fun info line => do
      match pySplitWs (pyStrip line) with
      | [] => Except.error "IndexError"
      | dev_num :: rest =>
          let dev_iomax_dict ← rest.foldlM
            (fun (dm : DevMap) tok =>
              match pySplitOnChar '=' tok with
              | [k, v] => Except.ok (alistSet dm k v)
              | _ => Except.error "ValueError") []
          Except.ok (alistSet info dev_num (CgVal.d dev_iomax_dict))) st0

/-- The `virsh_cmd == "memtune"` branch of
`__get_standardized_cgroup2_info`: read three files, strip, no sentinel
translation. -/
def get_standardized_cgroup2_memtune (content : String → String) :
    List (String × String) :=
  CGROUP_V2_MEM_FILE_MAPPING.foldl
    (fun st kf => alistSet st kf.1 (pyStrip (content kf.2))) []

/-- The `virsh_cmd == "schedinfo"` branch of
`__get_standardized_cgroup2_info`: split each file on whitespace and take
index 1 for keys containing `"period"`, index 0 otherwise; `cpu_shares` is
read below the `"libvirt"`-split prefix of the cgroup path.  No sentinel
value is rewritten here. -/
def get_standardized_cgroup2_schedinfo (cgroup_path : String)
    (vcpu_dirs : List String) (iothread_dirs : Option (List String))
    (content : String → String) : Except String (List (String × String)) :=
  CGROUP_V2_SCHEDINFO_FILE_MAPPING.foldlM
    (fun st kf => do
      match ← substPlaceholders vcpu_dirs iothread_dirs kf.2 with
      | none => pure st
      | some cg_file_name =>
          let cg_dir := if kf.1 = "cpu_shares" then pySplitFirst cgroup_path "libvirt"
                        else cgroup_path
          let cg_file_values := pySplitWs (pyStrip (content (os_path_join cg_dir cg_file_name)))
          let list_index := if pyContains kf.1 "period" then 1 else 0
          match cg_file_values[list_index]? with
          | none => Except.error "IndexError"
          | some v => pure (alistSet st kf.1 v)) []

/-! ## Dispatchers over `virsh_cmd`

The unrecognized-command branches log an error and return the (empty)
`standardized_cgroup_info` dict. -/

/-- Everything `__get_standardized_cgroup1_info` reads from the host. -/
structure CgEnv1 where
  /-- Result of `is_bfq()`. -/
  is_bfq : Bool
  /-- The blkio control files. -/
  blkio : BlkioV1Files
  /-- `getconf PAGE_SIZE`. -/
  page_size : Nat
  /-- Memory control file contents, by file name. -/
  mem_content : String → String
  /-- Resolved `cpu,cpuacct` path plus `"/.."`. -/
  sched_cgroup_path : String
  /-- `__get_cpu_subdirs(path, "vcpu")`. -/
  vcpu_dirs : List String
  /-- `__get_cpu_subdirs(path, "iothread")`. -/
  iothread_dirs : Option (List String)
  /-- CPU control file contents, by joined path. -/
  sched_content : String → String

/-- `__get_standardized_cgroup1_info` as a function of the host
environment and `virsh_cmd`. -/
def get_standardized_cgroup1_info (env : CgEnv1) (virsh_cmd : String) :
    Except String (List (String × CgVal)) :=
  if virsh_cmd = "blkiotune" then
    get_standardized_cgroup1_blkiotune env.is_bfq env.blkio
  else if virsh_cmd = "memtune" then
    Except.ok ((get_standardized_cgroup1_memtune env.page_size env.mem_content).map
      (fun kv => (kv.1, CgVal.s kv.2)))
  else if virsh_cmd = "schedinfo" then
    (get_standardized_cgroup1_schedinfo env.sched_cgroup_path env.vcpu_dirs
        env.iothread_dirs env.sched_content).map
      (fun m => m.map (fun kv => (kv.1, CgVal.s kv.2)))
  else
    Except.ok []

/-- Everything `__get_standardized_cgroup2_info` reads from the host. -/
structure CgEnv2 where
  /-- Content of the `io.bfq.weight` file. -/
  weight_file : String
  /-- Lines of the `io.max` file. -/
  iomax_lines : List String
  /-- Memory control file contents, by file name. -/
  mem_content : String → String
  /-- The resolved unified cgroup path. -/
  cgroup_path : String
  /-- `__get_cpu_subdirs(path, "vcpu")`. -/
  vcpu_dirs : List String
  /-- `__get_cpu_subdirs(path, "iothread")`. -/
  iothread_dirs : Option (List String)
  /-- CPU control file contents, by joined path. -/
  sched_content : String → String

/-- `__get_standardized_cgroup2_info` as a function of the host
environment and `virsh_cmd`. -/
def get_standardized_cgroup2_info (env : CgEnv2) (virsh_cmd : String) :
    Except String (List (String × CgVal)) :=
  if virsh_cmd = "blkiotune" then
    get_standardized_cgroup2_blkiotune env.weight_file env.iomax_lines
  else if virsh_cmd = "memtune" then
    Except.ok ((get_standardized_cgroup2_memtune env.mem_content).map
      (fun kv => (kv.1, CgVal.s kv.2)))
  else if virsh_cmd = "schedinfo" then
    (get_standardized_cgroup2_schedinfo env.cgroup_path env.vcpu_dirs
        env.iothread_dirs env.sched_content).map
      (fun m => m.map (fun kv => (kv.1, CgVal.s kv.2)))
  else
    Except.ok []

/-! ## `convert_virsh_output_to_dict` (first parsing stage) -/

/-- One line of `convert_virsh_output_to_dict`:
`output_info = output_line.split(":")`; the key is
`output_info[0].strip()`; the value is `""` when there is no `":"`, else
`output_info[1].strip()` — i.e. the piece between the first and second
`":"`, anything after a second `":"` is dropped. -/
def convert_virsh_line (output_line : String) : String × String :=
  match pySplitChar ':' output_line.data with
  | [] => ("", "")
  | [p] => (⟨pyStripChars p⟩, "")
  | p :: v :: _ => (⟨pyStripChars p⟩, ⟨pyStripChars v⟩)

/-- `convert_virsh_output_to_dict` over the stripped stdout's lines. -/
def convert_virsh_output_to_dict (output_list : List String) :
    List (String × String) :=
  output_list.foldl
    (fun output_dict output_line =>
      let kv := convert_virsh_line output_line
      alistSet output_dict kv.1 kv.2) []

/-! ## `get_standardized_virsh_info` (second parsing stage) -/

/-- State of the report blkiotune loop. -/
structure BlkioRSt where
  /-- `standardized_virsh_output_info`. -/
  info : List (CgKey × CgVal)
  /-- `dev_list` (may contain the `None` key). -/
  dev_list : List CgKey
deriving DecidableEq, Repr

/-- The inner `for i in range(len(io_value_list))` loop of the report
blkiotune branch: a token containing `"dev"` is resolved (possibly to
`None`), seeded with `dev_init_dict` when unseen, and the following token
is written under the mapped attribute; a trailing `"dev"` token raises
`IndexError`. -/
def blkioR_value_loop (resolve : String → Option String) (mapped_key : String) :
    List String → BlkioRSt → Except String BlkioRSt
  | [], st => Except.ok st
  | tok :: rest, st =>
      if pyContains tok "dev" then
        match rest with
        | [] => Except.error "IndexError"
        | next :: _ =>
            let dev_num : CgKey := match resolve tok with
                                   | some s => CgKey.s s
                                   | none => CgKey.n0
            let st1 : BlkioRSt :=
              if dev_num ∈ st.dev_list then st
              else ⟨alistSet st.info dev_num (CgVal.d dev_init_dict),
                    st.dev_list ++ [dev_num]⟩
            match alistGet? st1.info dev_num with
            | some (CgVal.d m) =>
                blkioR_value_loop resolve mapped_key rest
                  ⟨alistSet st1.info dev_num (CgVal.d (alistSet m mapped_key next)),
                   st1.dev_list⟩
            | _ => Except.error "TypeError"
      else blkioR_value_loop resolve mapped_key rest st

/-- One `(io_item, io_item_value)` step of the report blkiotune branch. -/
def blkioR_step (resolve : String → Option String) (st : BlkioRSt)
    (kv : String × String) : Except String BlkioRSt :=
  if kv.1 = "weight" then
    Except.ok ⟨alistSet st.info (CgKey.s kv.1) (CgVal.s kv.2), st.dev_list⟩
  else
    match alistGet? VIRSH_BLKIOTUNE_OUTPUT_MAPPING kv.1 with
    | some mapped_key =>
        if kv.2 ≠ "" then
          blkioR_value_loop resolve mapped_key (pySplitOnChar ',' kv.2) st
        else Except.ok st
    | none => Except.ok st

/-- The `virsh_cmd == "blkiotune"` branch of `get_standardized_virsh_info`. -/
def virsh_blkiotune_std (resolve : String → Option String)
    (virsh_dict : List (String × String)) :
    Except String (List (CgKey × CgVal)) :=
  Except.bind (virsh_dict.foldlM (blkioR_step resolve) (⟨[], []⟩ : BlkioRSt))
    fun st => Except.ok st.info

/-- The `virsh_cmd == "memtune"` branch of `get_standardized_virsh_info`:
defaults the three canonical keys to `"max"`, then stores each report field
under its own name — `"unlimited"` becomes `"max"`, a pure digit value is
multiplied by 1024 and stringified, anything else passes through. -/
def virsh_memtune_std (virsh_dict : List (String × String)) :
    List (CgKey × CgVal) :=
  let init : List (CgKey × CgVal) :=
    [(CgKey.s "hard_limit", CgVal.s "max"),
     (CgKey.s "soft_limit", CgVal.s "max"),
     (CgKey.s "swap_hard_limit", CgVal.s "max")]
  virsh_dict.foldl
    (fun st kv =>
      if kv.2 = "unlimited" then alistSet st (CgKey.s kv.1) (CgVal.s "max")
      else if pyIsDigit kv.2 then
        alistSet st (CgKey.s kv.1) (CgVal.s (toString (digitsToNat kv.2 * 1024)))
      else alistSet st (CgKey.s kv.1) (CgVal.s kv.2)) init

/-- One `(schedinfo_item, schedinfo_value)` step of the report schedinfo
branch: `scheduler` (case-insensitively) is skipped; for items containing
`"quota"` the two large sentinels, or a negative `int(...)`, become
`"max"` — the `int(...)` conversion raises `ValueError` on anything
non-numeric. -/
def schedinfoR_step (st : List (CgKey × CgVal)) (kv : String × String) :
    Except String (List (CgKey × CgVal)) :=
  if pyLower kv.1 = "scheduler" then Except.ok st
  else if pyContains kv.1 "quota" then
    if kv.2 = "18446744073709551" ∨ kv.2 = "17592186044415" then
      Except.ok (alistSet st (CgKey.s kv.1) (CgVal.s "max"))
    else
      match pyInt kv.2 with
      | none => Except.error "ValueError"
      | some n =>
          if n < 0 then Except.ok (alistSet st (CgKey.s kv.1) (CgVal.s "max"))
          else Except.ok (alistSet st (CgKey.s kv.1) (CgVal.s kv.2))
  else Except.ok (alistSet st (CgKey.s kv.1) (CgVal.s kv.2))

/-- The `virsh_cmd == "schedinfo"` branch of `get_standardized_virsh_info`. -/
def virsh_schedinfo_std (virsh_dict : List (String × String)) :
    Except String (List (CgKey × CgVal)) :=
  virsh_dict.foldlM schedinfoR_step []

/-- `get_standardized_virsh_info`: dispatch on `virsh_cmd`; an unsupported
command logs and returns Python `None` (here `Except.ok none`), unlike the
kernel-side readers which return an empty dict. -/
def get_standardized_virsh_info (resolve : String → Option String)
    (virsh_cmd : String) (virsh_dict : List (String × String)) :
    Except String (Option (List (CgKey × CgVal))) :=
  if virsh_cmd = "blkiotune" then
    (virsh_blkiotune_std resolve virsh_dict).map some
  else if virsh_cmd = "memtune" then
    Except.ok (some (virsh_memtune_std virsh_dict))
  else if virsh_cmd = "schedinfo" then
    (virsh_schedinfo_std virsh_dict).map some
  else
    Except.ok none

/-! ## Specification predicates -/

/-- A per-device sub-map carries all four throttle keys. -/
def fourKeys (dm : DevMap) : Prop :=
  (alistGet? dm "rbps").isSome = true ∧ (alistGet? dm "wbps").isSome = true ∧
  (alistGet? dm "riops").isSome = true ∧ (alistGet? dm "wiops").isSome = true

/-- Every per-device sub-map of a standardized dict carries all four
throttle keys. -/
def devKeysOk {κ : Type} [DecidableEq κ] (m : List (κ × CgVal)) : Prop :=
  ∀ k dm, alistGet? m k = some (CgVal.d dm) → fourKeys dm

/-! ## Basic lemmas about the dict operations -/

theorem alistGet?_set_self {κ α : Type} [DecidableEq κ]
    (m : List (κ × α)) (k : κ) (v : α) :
    alistGet? (alistSet m k v) k = some v := by
  induction m with
  | nil => simp [alistSet, alistGet?]
  | cons kv rest ih =>
      by_cases h : kv.1 = k
      · simp [alistSet, alistGet?, h]
      · simp only [alistSet, if_neg h, alistGet?]
        exact ih

theorem alistGet?_set_ne {κ α : Type} [DecidableEq κ]
    (m : List (κ × α)) (k k' : κ) (v : α) (h : k' ≠ k) :
    alistGet? (alistSet m k v) k' = alistGet? m k' := by
  have hkk : ¬ k = k' := fun hh => h hh.symm
  induction m with
  | nil => simp [alistSet, alistGet?, hkk]
  | cons kv rest ih =>
      by_cases hk : kv.1 = k
      · simp only [alistSet, if_pos hk, alistGet?]
        rw [if_neg hkk, if_neg (fun hh => hkk (hk.symm.trans hh))]
      · simp only [alistSet, if_neg hk, alistGet?]
        by_cases hk' : kv.1 = k'
        · rw [if_pos hk', if_pos hk']
        · rw [if_neg hk', if_neg hk', ih]

/-- Setting a key keeps every present key present. -/
theorem alistGet?_set_isSome {κ α : Type} [DecidableEq κ]
    (m : List (κ × α)) (k k' : κ) (v : α)
    (h : (alistGet? m k').isSome = true) :
    (alistGet? (alistSet m k v) k').isSome = true := by
  by_cases hk : k' = k
  · subst hk
    rw [alistGet?_set_self]
    rfl
  · rw [alistGet?_set_ne m k k' v hk]
    exact h

/-- Invariants survive an `Except`-valued left fold when each `ok` step
preserves them. -/
theorem foldlM_except_inv {σ α : Type} (P : σ → Prop)
    (f : σ → α → Except String σ)
    (hstep : ∀ s a s', P s → f s a = Except.ok s' → P s') :
    ∀ (l : List α) (s s' : σ), P s → List.foldlM f s l = Except.ok s' → P s' := by
  intro l
  induction l with
  | nil =>
      intro s s' hP h
      simp only [List.foldlM_nil] at h
      cases h
      exact hP
  | cons a rest ih =>
      intro s s' hP h
      simp only [List.foldlM_cons] at h
      cases hfa : f s a with
      | error e => rw [hfa] at h; simp [Bind.bind, Except.bind] at h
      | ok s1 =>
          rw [hfa] at h
          simp only [Bind.bind, Except.bind] at h
          exact ih s1 s' (hstep s a s1 hP hfa) h

/-! ## C10 — the schedinfo report branch and unparseable quota values -/

/-- A `schedinfoR_step` either succeeds or raises exactly `ValueError`. -/
theorem schedinfoR_step_ok_or_valueerror (st : List (CgKey × CgVal))
    (kv : String × String) :
    (∃ st', schedinfoR_step st kv = Except.ok st') ∨
    schedinfoR_step st kv = Except.error "ValueError" := by
  unfold schedinfoR_step
  by_cases h1 : pyLower kv.1 = "scheduler"
  · exact Or.inl ⟨st, by rw [if_pos h1]⟩
  · rw [if_neg h1]
    by_cases h2 : pyContains kv.1 "quota" = true
    · rw [if_pos h2]
      by_cases h3 : kv.2 = "18446744073709551" ∨ kv.2 = "17592186044415"
      · exact Or.inl ⟨_, by rw [if_pos h3]⟩
      · rw [if_neg h3]
        cases hpi : pyInt kv.2 with
        | none => exact Or.inr rfl
        | some n =>
            by_cases h4 : n < 0
            · exact Or.inl ⟨_, by dsimp only; rw [if_pos h4]⟩
            · exact Or.inl ⟨_, by dsimp only; rw [if_neg h4]⟩
    · rw [if_neg h2]
      exact Or.inl ⟨_, rfl⟩

/-- A quota field whose value is neither sentinel nor parseable makes the
whole schedinfo fold raise `ValueError`, from any intermediate state. -/
theorem virsh_schedinfo_foldlM_valueerror
    (virsh_dict : List (String × String)) (k v : String)
    (hmem : (k, v) ∈ virsh_dict) (hsched : pyLower k ≠ "scheduler")
    (hq : pyContains k "quota" = true)
    (hs1 : v ≠ "18446744073709551") (hs2 : v ≠ "17592186044415")
    (hint : pyInt v = none) :
    ∀ st, List.foldlM schedinfoR_step st virsh_dict = Except.error "ValueError" := by
  induction virsh_dict with
  | nil => cases hmem
  | cons a rest ih =>
      intro st
      simp only [List.foldlM_cons]
      rcases List.mem_cons.mp hmem with heq | hmem'
      · have hstep : schedinfoR_step st a = Except.error "ValueError" := by
          rw [← heq]
          unfold schedinfoR_step
          rw [if_neg hsched, if_pos hq,
              if_neg (by simp [hs1, hs2]), hint]
        rw [hstep]
        rfl
      · rcases schedinfoR_step_ok_or_valueerror st a with ⟨st', hok⟩ | herr
        · rw [hok]
          simpa [Bind.bind, Except.bind] using ih hmem' st'
        · rw [herr]
          rfl

/-- C10: a schedinfo report with a `"quota"` field whose value is not one
of the two large sentinels and not parseable as an integer (e.g. the
literal `"max"`) makes the Report Parser raise an uncaught `ValueError`
instead of returning a map: the negative-value check converts the value
with `int(...)` unconditionally. -/
theorem C10_schedinfo_quota_conversion_error
    (resolve : String → Option String) (virsh_dict : List (String × String))
    (k v : String) (hmem : (k, v) ∈ virsh_dict)
    (hsched : pyLower k ≠ "scheduler")
    (hq : pyContains k "quota" = true)
    (hs1 : v ≠ "18446744073709551") (hs2 : v ≠ "17592186044415")
    (hint : pyInt v = none) :
    get_standardized_virsh_info resolve "schedinfo" virsh_dict =
      Except.error "ValueError" := by
  unfold get_standardized_virsh_info
  rw [if_neg (by decide), if_neg (by decide), if_pos rfl]
  unfold virsh_schedinfo_std
  rw [virsh_schedinfo_foldlM_valueerror virsh_dict k v hmem hsched hq hs1 hs2 hint]
  rfl

/-- Witness for C10 at the concrete report `{"vcpu_quota": "max"}`. -/
theorem C10_schedinfo_quota_conversion_error_witness :
    get_standardized_virsh_info (fun _ => none) "schedinfo"
      [("vcpu_quota", "max")] = Except.error "ValueError" :=
  C10_schedinfo_quota_conversion_error (fun _ => none) [("vcpu_quota", "max")]
    "vcpu_quota" "max" (by decide) (by decide) (by decide) (by decide)
    (by decide) (by decide)

/-! ## C9 — unsupported domain signaling -/

/-- C9: for an unrecognized `virsh_cmd`, both Kernel-State Readers return
an empty dict while the Report Parser returns Python `None` — the
unsupported-domain condition is signalled asymmetrically. -/
theorem C9_unsupported_domain_asymmetry (env1 : CgEnv1) (env2 : CgEnv2)
    (resolve : String → Option String) (virsh_dict : List (String × String))
    (virsh_cmd : String)
    (h1 : virsh_cmd ≠ "blkiotune") (h2 : virsh_cmd ≠ "memtune")
    (h3 : virsh_cmd ≠ "schedinfo") :
    get_standardized_cgroup1_info env1 virsh_cmd = Except.ok [] ∧
    get_standardized_cgroup2_info env2 virsh_cmd = Except.ok [] ∧
    get_standardized_virsh_info resolve virsh_cmd virsh_dict = Except.ok none := by
  unfold get_standardized_cgroup1_info get_standardized_cgroup2_info
    get_standardized_virsh_info
  rw [if_neg h1, if_neg h2, if_neg h3, if_neg h1, if_neg h2, if_neg h3,
      if_neg h1, if_neg h2, if_neg h3]
  exact ⟨rfl, rfl, rfl⟩

/-- Witness for C9 at the unsupported command `"cputune"`. -/
theorem C9_unsupported_domain_asymmetry_witness :
    get_standardized_cgroup1_info
        ⟨true, ⟨"", [], [], [], [], []⟩, 4096, fun _ => "", "", [], none, fun _ => ""⟩
        "cputune" = Except.ok [] ∧
    get_standardized_cgroup2_info
        ⟨"", [], fun _ => "", "", [], none, fun _ => ""⟩ "cputune" = Except.ok [] ∧
    get_standardized_virsh_info (fun _ => none) "cputune" [] = Except.ok none :=
  C9_unsupported_domain_asymmetry _ _ _ _ "cputune" (by decide) (by decide)
    (by decide)

/-! ## C2 — memtune report normalization -/

/-- C2 counterexample: the memtune report branch stores each field under
its own name, so `"max_memory: 2097152"` leaves `hard_limit` at its
default `"max"` and puts `"2147483648"` under `max_memory`, not under
`hard_limit` as the claim states. -/
theorem C2_memtune_no_field_name_mapping :
    virsh_memtune_std [("max_memory", "2097152")] =
      [(CgKey.s "hard_limit", CgVal.s "max"),
       (CgKey.s "soft_limit", CgVal.s "max"),
       (CgKey.s "swap_hard_limit", CgVal.s "max"),
       (CgKey.s "max_memory", CgVal.s "2147483648")] := by rfl

/-- C2 amended: a pure-digit memtune report value is multiplied by 1024
and stringified, and `"unlimited"` becomes `"max"`, but both are stored
under the report field's own name (there is no field-name mapping). -/
theorem C2_memtune_field_scaling (mem_item mem_item_value : String) :
    (pyIsDigit mem_item_value = true →
      alistGet? (virsh_memtune_std [(mem_item, mem_item_value)])
          (CgKey.s mem_item) =
        some (CgVal.s (toString (digitsToNat mem_item_value * 1024)))) ∧
    alistGet? (virsh_memtune_std [(mem_item, "unlimited")]) (CgKey.s mem_item) =
      some (CgVal.s "max") := by
  constructor
  · intro hd
    have hne : mem_item_value ≠ "unlimited" := by
      intro he
      rw [he] at hd
      exact absurd hd (by decide)
    unfold virsh_memtune_std
    simp only [List.foldl]
    rw [if_neg hne, if_pos hd]
    exact alistGet?_set_self _ _ _
  · unfold virsh_memtune_std
    simp only [List.foldl, if_true]
    exact alistGet?_set_self _ _ _

/-- Witness for C2 at the report field `"hard_limit: 2097152"` (KiB),
which scales to `"2147483648"` (bytes). -/
theorem C2_memtune_field_scaling_witness :
    alistGet? (virsh_memtune_std [("hard_limit", "2097152")])
        (CgKey.s "hard_limit") = some (CgVal.s "2147483648") :=
  ((C2_memtune_field_scaling "hard_limit" "2097152").1 (by decide)).trans
    (by decide)

/-! ## C8 — the shape of standardized values -/

/-- Invariants survive a plain left fold when each step preserves them for
elements drawn from the folded list. -/
theorem foldl_inv {σ α : Type} (P : σ → Prop) (f : σ → α → σ)
    (pred : α → Prop) (hstep : ∀ s a, pred a → P s → P (f s a)) :
    ∀ (l : List α) (s : σ), (∀ a ∈ l, pred a) → P s → P (List.foldl f s l) := by
  intro l
  induction l with
  | nil => intro s _ hP; simpa using hP
  | cons a rest ih =>
      intro s hpred hP
      simp only [List.foldl_cons]
      exact ih (f s a) (fun x hx => hpred x (List.mem_cons_of_mem a hx))
        (hstep s a (hpred a (List.mem_cons_self a rest)) hP)

/-- C8 counterexample: a memtune report value that is neither `"unlimited"`
nor pure digits passes through unchanged, so the canonical map holds the
non-normalized token `"abc"`. -/
theorem C8_memtune_passthrough_token :
    get_standardized_virsh_info (fun _ => none) "memtune" [("hard_limit", "abc")] =
      Except.ok (some [(CgKey.s "hard_limit", CgVal.s "abc"),
                       (CgKey.s "soft_limit", CgVal.s "max"),
                       (CgKey.s "swap_hard_limit", CgVal.s "max")]) ∧
    pyIsDigit "abc" = false ∧ "abc" ≠ "max" := by
  refine ⟨by rfl, by decide, by decide⟩

/-- C8 amended: every value the memtune report branch stores is a string
(never `None`): `"max"`, a 1024-scaled digit string derived from an input
value, or an input value passed through verbatim; separately, the v2
kernel blkio reader stores Python `None` as the weight when the weight
file contains no digit. -/
theorem C8_memtune_value_shape (virsh_dict : List (String × String)) :
    (∀ k val, alistGet? (virsh_memtune_std virsh_dict) k = some val →
      ∃ v, val = CgVal.s v ∧
        (v = "max" ∨ ∃ p, p ∈ virsh_dict ∧
          (v = p.2 ∨ v = toString (digitsToNat p.2 * 1024)))) ∧
    get_standardized_cgroup2_blkiotune "no-digits" [] =
      Except.ok [("weight", CgVal.s0)] := by
  constructor
  · set GoodVal : CgVal → Prop := fun val => ∃ v, val = CgVal.s v ∧
      (v = "max" ∨ ∃ p, p ∈ virsh_dict ∧
        (v = p.2 ∨ v = toString (digitsToNat p.2 * 1024))) with hGood
    set P : List (CgKey × CgVal) → Prop :=
      fun st => ∀ k val, alistGet? st k = some val → GoodVal val with hP
    have hset : ∀ st key val, P st → GoodVal val → P (alistSet st key val) := by
      intro st key val hPst hval k v hget
      by_cases hk : k = key
      · subst hk
        rw [alistGet?_set_self] at hget
        cases hget
        exact hval
      · rw [alistGet?_set_ne st key k val hk] at hget
        exact hPst k v hget
    have hinit : P [(CgKey.s "hard_limit", CgVal.s "max"),
                    (CgKey.s "soft_limit", CgVal.s "max"),
                    (CgKey.s "swap_hard_limit", CgVal.s "max")] := by
      intro k val h
      simp only [alistGet?] at h
      split at h
      · injection h with h2
        exact ⟨"max", h2.symm, Or.inl rfl⟩
      · split at h
        · injection h with h2
          exact ⟨"max", h2.symm, Or.inl rfl⟩
        · split at h
          · injection h with h2
            exact ⟨"max", h2.symm, Or.inl rfl⟩
          · cases h
    have hstep : ∀ st kv, kv ∈ virsh_dict → P st →
        P (if kv.2 = "unlimited" then alistSet st (CgKey.s kv.1) (CgVal.s "max")
           else if pyIsDigit kv.2 then
             alistSet st (CgKey.s kv.1)
               (CgVal.s (toString (digitsToNat kv.2 * 1024)))
           else alistSet st (CgKey.s kv.1) (CgVal.s kv.2)) := by
      intro st kv hmem hPst
      by_cases h1 : kv.2 = "unlimited"
      · rw [if_pos h1]
        exact hset _ _ _ hPst ⟨"max", rfl, Or.inl rfl⟩
      · rw [if_neg h1]
        by_cases h2 : pyIsDigit kv.2 = true
        · rw [if_pos h2]
          exact hset _ _ _ hPst ⟨_, rfl, Or.inr ⟨kv, hmem, Or.inr rfl⟩⟩
        · rw [if_neg h2]
          exact hset _ _ _ hPst ⟨_, rfl, Or.inr ⟨kv, hmem, Or.inl rfl⟩⟩
    exact foldl_inv P _ (fun kv => kv ∈ virsh_dict) hstep virsh_dict _
      (fun a ha => ha) hinit
  · rfl

/-- Witness for C8 at the report `{"hard_limit": "abc"}`: the stored value
is a string permitted by the shape characterization. -/
theorem C8_memtune_value_shape_witness :
    ∃ v, CgVal.s "abc" = CgVal.s v ∧
      (v = "max" ∨ ∃ p, p ∈ [("hard_limit", "abc")] ∧
        (v = p.2 ∨ v = toString (digitsToNat p.2 * 1024))) :=
  (C8_memtune_value_shape [("hard_limit", "abc")]).1 (CgKey.s "hard_limit")
    (CgVal.s "abc") (by rfl)

/-! ## C1 — per-device entries carry all four throttle keys -/

theorem fourKeys_dev_init : fourKeys dev_init_dict := by
  refine ⟨?_, ?_, ?_, ?_⟩ <;> decide

theorem fourKeys_set (dm : DevMap) (k v : String) (h : fourKeys dm) :
    fourKeys (alistSet dm k v) :=
  ⟨alistGet?_set_isSome dm k "rbps" v h.1,
   alistGet?_set_isSome dm k "wbps" v h.2.1,
   alistGet?_set_isSome dm k "riops" v h.2.2.1,
   alistGet?_set_isSome dm k "wiops" v h.2.2.2⟩

/-- Setting a key preserves `devKeysOk` when the new value, if a dict, has
all four keys. -/
theorem devKeysOk_set {κ : Type} [DecidableEq κ] (m : List (κ × CgVal))
    (key : κ) (val : CgVal) (hm : devKeysOk m)
    (hval : ∀ dm, val = CgVal.d dm → fourKeys dm) :
    devKeysOk (alistSet m key val) := by
  intro k dm hget
  by_cases hk : k = key
  · subst hk
    rw [alistGet?_set_self] at hget
    injection hget with h2
    exact hval dm h2
  · rw [alistGet?_set_ne m key k val hk] at hget
    exact hm k dm hget

theorem blkio1_line_devKeysOk (cg_key : String) (st : Blkio1St) (line : String)
    (st' : Blkio1St) (hst : devKeysOk st.info)
    (h : blkio1_line cg_key st line = Except.ok st') : devKeysOk st'.info := by
  unfold blkio1_line at h
  cases hsplit : pySplitWs (pyStrip line) with
  | nil =>
      rw [hsplit] at h
      cases h
  | cons dev_num toks =>
      cases toks with
      | nil =>
          rw [hsplit] at h
          cases h
      | cons dev_cg_value rest =>
          rw [hsplit] at h
          dsimp only at h
          have hinfo1 : devKeysOk (if dev_num ∈ st.dev_list then st.info
              else alistSet st.info dev_num (CgVal.d dev_init_dict)) := by
            by_cases hmem : dev_num ∈ st.dev_list
            · rw [if_pos hmem]
              exact hst
            · rw [if_neg hmem]
              exact devKeysOk_set st.info dev_num _ hst
                (fun dm hdm => by injection hdm with h2; exact h2 ▸ fourKeys_dev_init)
          cases hget : alistGet? (if dev_num ∈ st.dev_list then st.info
              else alistSet st.info dev_num (CgVal.d dev_init_dict)) dev_num with
          | none =>
              rw [hget] at h
              cases h
          | some val =>
              rw [hget] at h
              cases val with
              | s v => cases h
              | s0 => cases h
              | d m =>
                  dsimp only at h
                  injection h with h2
                  rw [← h2]
                  refine devKeysOk_set _ dev_num _ hinfo1 (fun dm hdm => ?_)
                  injection hdm with h3
                  exact h3 ▸ fourKeys_set m cg_key dev_cg_value (hinfo1 dev_num m hget)

theorem blkio1_fold_devKeysOk (cg_key : String) (lines : List String)
    (st st' : Blkio1St) (hst : devKeysOk st.info)
    (h : List.foldlM (blkio1_line cg_key) st lines = Except.ok st') :
    devKeysOk st'.info :=
  foldlM_except_inv (fun s => devKeysOk s.info) (blkio1_line cg_key)
    (fun s a s' hP hok => blkio1_line_devKeysOk cg_key s a s' hP hok)
    lines st st' hst h

/-- Destructuring an `Except` bind that succeeded. -/
theorem except_bind_ok {α β : Type} (e : Except String α)
    (f : α → Except String β) (b : β) (h : Except.bind e f = Except.ok b) :
    ∃ a, e = Except.ok a ∧ f a = Except.ok b := by
  cases e with
  | error s => simp [Except.bind] at h
  | ok a => exact ⟨a, rfl, by simpa [Except.bind] using h⟩

theorem cgroup1_blkiotune_devKeysOk (is_bfq : Bool) (files : BlkioV1Files)
    (m : List (String × CgVal))
    (h : get_standardized_cgroup1_blkiotune is_bfq files = Except.ok m) :
    devKeysOk m := by
  unfold get_standardized_cgroup1_blkiotune at h
  obtain ⟨st2, h2, h⟩ := except_bind_ok _ _ _ h
  obtain ⟨st3, h3, h⟩ := except_bind_ok _ _ _ h
  obtain ⟨st4, h4, h⟩ := except_bind_ok _ _ _ h
  obtain ⟨st5, h5, h⟩ := except_bind_ok _ _ _ h
  obtain ⟨st6, h6, h⟩ := except_bind_ok _ _ _ h
  have hst1 : devKeysOk (Blkio1St.mk
      (alistSet [] "weight" (CgVal.s (pyStrip files.weight))) []).info := by
    intro k dm hget
    by_cases hk : k = "weight"
    · subst hk
      rw [alistGet?_set_self] at hget
      cases hget
    · rw [alistGet?_set_ne _ _ _ _ hk] at hget
      cases hget
  have hd2 := blkio1_fold_devKeysOk "wiops" files.wiops _ st2 hst1 h2
  have hd3 := blkio1_fold_devKeysOk "riops" files.riops st2 st3 hd2 h3
  have hd4 := blkio1_fold_devKeysOk "rbps" files.rbps st3 st4 hd3 h4
  have hd5 := blkio1_fold_devKeysOk "wbps" files.wbps st4 st5 hd4 h5
  have hd6 : devKeysOk st6.info := by
    cases is_bfq with
    | true =>
        rw [if_pos rfl] at h6
        injection h6 with h6'
        rw [← h6']
        exact hd5
    | false =>
        rw [if_neg (by simp)] at h6
        exact blkio1_fold_devKeysOk "weight_device" files.weight_device st5 st6
          hd5 h6
  injection h with h'
  rw [← h']
  exact hd6

theorem blkioR_value_loop_devKeysOk (resolve : String → Option String)
    (mapped_key : String) :
    ∀ (toks : List String) (st st' : BlkioRSt), devKeysOk st.info →
      blkioR_value_loop resolve mapped_key toks st = Except.ok st' →
      devKeysOk st'.info := by
  intro toks
  induction toks with
  | nil =>
      intro st st' hst h
      unfold blkioR_value_loop at h
      cases h
      exact hst
  | cons tok rest ih =>
      intro st st' hst h
      unfold blkioR_value_loop at h
      split at h
      · cases rest with
        | nil => cases h
        | cons next rest2 =>
            dsimp only at h
            have hst1 : devKeysOk (if (match resolve tok with
                | some s => CgKey.s s
                | none => CgKey.n0) ∈ st.dev_list then st
               else ⟨alistSet st.info (match resolve tok with
                      | some s => CgKey.s s
                      | none => CgKey.n0) (CgVal.d dev_init_dict),
                     st.dev_list ++ [(match resolve tok with
                      | some s => CgKey.s s
                      | none => CgKey.n0)]⟩ : BlkioRSt).info := by
              split
              · exact hst
              · exact devKeysOk_set st.info _ _ hst
                  (fun dm hdm => by injection hdm with h2; exact h2 ▸ fourKeys_dev_init)
            split at h
            case _ m heq =>
              refine ih _ st' ?_ h
              refine devKeysOk_set _ _ _ hst1 (fun dm hdm => ?_)
              injection hdm with h3
              exact h3 ▸ fourKeys_set m mapped_key next (hst1 _ m heq)
            case _ => cases h
      · exact ih st st' hst h

theorem blkioR_step_devKeysOk (resolve : String → Option String)
    (st : BlkioRSt) (kv : String × String) (st' : BlkioRSt)
    (hst : devKeysOk st.info)
    (h : blkioR_step resolve st kv = Except.ok st') : devKeysOk st'.info := by
  unfold blkioR_step at h
  split at h
  · cases h
    exact devKeysOk_set st.info _ _ hst (fun dm hdm => by cases hdm)
  · split at h
    case _ mapped_key _ =>
      split at h
      · exact blkioR_value_loop_devKeysOk resolve mapped_key _ st st' hst h
      · cases h
        exact hst
    case _ =>
      cases h
      exact hst

theorem virsh_blkiotune_std_devKeysOk (resolve : String → Option String)
    (virsh_dict : List (String × String)) (m : List (CgKey × CgVal))
    (h : virsh_blkiotune_std resolve virsh_dict = Except.ok m) : devKeysOk m := by
  unfold virsh_blkiotune_std at h
  obtain ⟨st, hfold, hpure⟩ := except_bind_ok _ _ _ h
  have hd : devKeysOk st.info :=
    foldlM_except_inv (fun s => devKeysOk s.info) (blkioR_step resolve)
      (fun s a s' hP hok => blkioR_step_devKeysOk resolve s a s' hP hok)
      virsh_dict ⟨[], []⟩ st (fun k dm hget => by cases hget) hfold
  injection hpure with h'
  rw [← h']
  exact hd

/-- C1 counterexample: the v2 kernel reader copies exactly the `key=value`
pairs present on an `io.max` line — a line mentioning only `riops` yields
a device entry without `rbps`/`wbps`/`wiops` and without any `"max"`
defaults, contradicting the claim for cgroup v2. -/
theorem C1_v2_no_default_keys :
    get_standardized_cgroup2_blkiotune "default 100" ["8:0 riops=500"] =
      Except.ok [("weight", CgVal.s "100"),
                 ("8:0", CgVal.d [("riops", "500")])] ∧
    alistGet? [(("riops" : String), ("500" : String))] "rbps" = none :=
  ⟨by rfl, by rfl⟩

/-- C1 amended: the v1 Kernel-State Reader and the Report Parser seed
every device entry with all four keys defaulted to `"max"` (so all four
keys are always present), and a v1 `blkio.throttle.read_iops_device` line
`"8:0 500"` yields the claimed 4-key device map; the v2 kernel reader
instead copies exactly the pairs present on each `io.max` line. -/
theorem C1_device_entries_all_four_keys :
    (∀ (is_bfq : Bool) (files : BlkioV1Files) (m : List (String × CgVal)),
        get_standardized_cgroup1_blkiotune is_bfq files = Except.ok m →
        devKeysOk m) ∧
    (∀ (resolve : String → Option String)
        (virsh_dict : List (String × String)) (m : List (CgKey × CgVal)),
        get_standardized_virsh_info resolve "blkiotune" virsh_dict =
          Except.ok (some m) → devKeysOk m) ∧
    get_standardized_cgroup1_blkiotune true ⟨"500", [], [], [], ["8:0 500"], []⟩ =
      Except.ok [("weight", CgVal.s "500"),
                 ("8:0", CgVal.d [("rbps", "max"), ("wbps", "max"),
                                  ("riops", "500"), ("wiops", "max")])] := by
  refine ⟨cgroup1_blkiotune_devKeysOk, ?_, by rfl⟩
  intro resolve virsh_dict m h
  unfold get_standardized_virsh_info at h
  rw [if_pos rfl] at h
  cases he : virsh_blkiotune_std resolve virsh_dict with
  | error s => rw [he] at h; cases h
  | ok m' =>
      rw [he] at h
      simp only [Except.map] at h
      injection h with h2
      injection h2 with h3
      exact h3 ▸ virsh_blkiotune_std_devKeysOk resolve virsh_dict m' he

/-- Witness for C1 at the claimed concrete v1 input: the produced device
entry for `"8:0"` indeed carries all four keys. -/
theorem C1_device_entries_all_four_keys_witness :
    fourKeys [("rbps", "max"), ("wbps", "max"), ("riops", "500"),
              ("wiops", "max")] :=
  C1_device_entries_all_four_keys.1 true ⟨"500", [], [], [], ["8:0 500"], []⟩
    [("weight", CgVal.s "500"),
     ("8:0", CgVal.d [("rbps", "max"), ("wbps", "max"), ("riops", "500"),
                      ("wiops", "max")])]
    (by rfl) "8:0" _ (by rfl)

/-! ## C3 — the first (generic) report parsing stage -/

theorem pySplitP_ne_nil (p : Char → Bool) (s : List Char) :
    pySplitP p s ≠ [] := by
  cases s with
  | nil => simp [pySplitP]
  | cons c rest =>
      unfold pySplitP
      cases hr : pySplitP p rest with
      | nil => simp
      | cons x xs => by_cases hp : p c <;> simp [hp]

theorem pySplitP_no_sep (p : Char → Bool) :
    ∀ s : List Char, (∀ c ∈ s, p c = false) → pySplitP p s = [s] := by
  intro s
  induction s with
  | nil => intro _; rfl
  | cons c rest ih =>
      intro h
      simp only [pySplitP, ih (fun x hx => h x (List.mem_cons_of_mem c hx)),
                 h c (List.mem_cons_self c rest), Bool.false_eq_true, if_false]

theorem pySplitP_append (p : Char → Bool) (sep : Char) (b : List Char)
    (hsep : p sep = true) :
    ∀ a : List Char, (∀ c ∈ a, p c = false) →
      pySplitP p (a ++ sep :: b) = a :: pySplitP p b := by
  intro a
  induction a with
  | nil =>
      intro _
      obtain ⟨x, xs, hr⟩ : ∃ x xs, pySplitP p b = x :: xs := by
        cases hb : pySplitP p b with
        | nil => exact absurd hb (pySplitP_ne_nil p b)
        | cons x xs => exact ⟨x, xs, rfl⟩
      simp [pySplitP, hr, hsep]
  | cons c a' ih =>
      intro h
      have hc : p c = false := h c (List.mem_cons_self c a')
      have ha' := ih (fun x hx => h x (List.mem_cons_of_mem c hx))
      have hstep : pySplitP p ((c :: a') ++ sep :: b) =
          match pySplitP p (a' ++ sep :: b) with
          | [] => [[]]
          | x :: xs => if p c then [] :: x :: xs else (c :: x) :: xs := rfl
      rw [hstep, ha']
      simp [hc]

/-- C3 counterexample: a value containing a `":"` is not kept whole — the
generic stage takes only `split(":")[1]`, the text between the first and
second colon, so `"time : 12:30"` maps `time` to `"12"`, not to
`"12:30"`. -/
theorem C3_value_truncated_at_second_colon :
    convert_virsh_output_to_dict ["time : 12:30"] = [("time", "12")] ∧
    ("12" : String) ≠ "12:30" :=
  ⟨by rfl, by decide⟩

/-- C3 amended: each line is split on every `":"`; the trimmed text before
the first `":"` maps to the trimmed text between the first and second
`":"` (everything after a second `":"` is dropped); a line with no `":"`
maps its trimmed text to the empty string. -/
theorem C3_first_stage_split (a b c : List Char)
    (ha : ∀ ch ∈ a, ch ≠ ':') (hb : ∀ ch ∈ b, ch ≠ ':') :
    convert_virsh_line ⟨a ++ ':' :: (b ++ ':' :: c)⟩ =
      (⟨pyStripChars a⟩, ⟨pyStripChars b⟩) ∧
    convert_virsh_line ⟨a ++ ':' :: b⟩ = (⟨pyStripChars a⟩, ⟨pyStripChars b⟩) ∧
    convert_virsh_line ⟨a⟩ = (⟨pyStripChars a⟩, "") := by
  have ha' : ∀ ch ∈ a, (decide (ch = ':')) = false :=
    fun ch hch => decide_eq_false (ha ch hch)
  have hb' : ∀ ch ∈ b, (decide (ch = ':')) = false :=
    fun ch hch => decide_eq_false (hb ch hch)
  refine ⟨?_, ?_, ?_⟩
  · unfold convert_virsh_line pySplitChar
    dsimp only
    rw [pySplitP_append (fun ch => decide (ch = ':')) ':' (b ++ ':' :: c)
          (by decide) a ha',
        pySplitP_append (fun ch => decide (ch = ':')) ':' c (by decide) b hb']
  · unfold convert_virsh_line pySplitChar
    dsimp only
    rw [pySplitP_append (fun ch => decide (ch = ':')) ':' b (by decide) a ha',
        pySplitP_no_sep (fun ch => decide (ch = ':')) b hb']
  · unfold convert_virsh_line pySplitChar
    dsimp only
    rw [pySplitP_no_sep (fun ch => decide (ch = ':')) a ha']

/-- Witness for C3 at the line `"weight : 500"` (built as
`"weight " ++ ":" ++ " 500"`). -/
theorem C3_first_stage_split_witness :
    convert_virsh_line ⟨"weight ".data ++ ':' :: " 500".data⟩ =
      ("weight", "500") :=
  ((C3_first_stage_split "weight ".data " 500".data [] (by decide)
      (by decide)).2.1).trans (by decide)

/-! ## C7 — the v2 emulator path rewrite -/

theorem startsWith_iff (needle : List Char) :
    ∀ hay : List Char, (startsWith needle hay = true ↔ ∃ t, hay = needle ++ t) := by
  induction needle with
  | nil =>
      intro hay
      cases hay <;> simp [startsWith]
  | cons nc ns ih =>
      intro hay
      cases hay with
      | nil =>
          simp [startsWith]
      | cons c rest =>
          simp only [startsWith, Bool.and_eq_true, decide_eq_true_eq, ih,
                     List.cons_append, List.cons.injEq]
          constructor
          · rintro ⟨h1, t, h2⟩
            exact ⟨t, h1.symm, h2⟩
          · rintro ⟨t, h1, h2⟩
            exact ⟨h1.symm, t, h2⟩

theorem hasSub_iff (needle : List Char) :
    ∀ hay : List Char,
      (hasSub needle hay = true ↔ ∃ u v, hay = u ++ needle ++ v) := by
  intro hay
  induction hay with
  | nil =>
      cases needle with
      | nil =>
          constructor
          · intro _
            exact ⟨[], [], rfl⟩
          · intro _
            rfl
      | cons nc ns =>
          constructor
          · intro h
            simp [hasSub] at h
          · rintro ⟨u, v, huv⟩
            simp at huv
  | cons c rest ih =>
      simp only [hasSub, Bool.or_eq_true, startsWith_iff, ih]
      constructor
      · rintro (⟨t, ht⟩ | ⟨u, v, huv⟩)
        · exact ⟨[], t, by simpa using ht⟩
        · exact ⟨c :: u, v, by simp [huv]⟩
      · rintro ⟨u, v, huv⟩
        cases u with
        | nil => exact Or.inl ⟨v, by simpa using huv⟩
        | cons u0 us =>
            injection huv with h1 h2
            exact Or.inr ⟨us, v, h2⟩

/-- C7 counterexample: `"emulator"` occurring in the middle of the joined
path (its last segment being `emulator-helper.scope`, not `emulator`)
still triggers the `"/.."` rewrite, because the source tests membership of
the substring `"emulator"` in the whole path string. -/
theorem C7_substring_not_last_segment :
    get_cgroup_path_v2 "/sys/fs/cgroup" "/machine.slice/emulator-helper.scope" =
      "/sys/fs/cgroup/machine.slice/emulator-helper.scope/.." ∧
    lastSegment "/sys/fs/cgroup/machine.slice/emulator-helper.scope" ≠
      "emulator" :=
  ⟨by rfl, by decide⟩

/-- C7 amended: the v2 path resolver appends `"/.."` to the joined
mount-point-plus-scope path exactly when the substring `"emulator"` occurs
anywhere in the path string (not only as its last segment); otherwise the
joined path is returned unmodified. -/
theorem C7_emulator_substring_rewrite (cg_mount_point cg_vm_scope : String) :
    ((∃ u v, (os_path_join cg_mount_point (pyStripChar '/' cg_vm_scope)).data =
        u ++ "emulator".data ++ v) →
      get_cgroup_path_v2 cg_mount_point cg_vm_scope =
        os_path_join cg_mount_point (pyStripChar '/' cg_vm_scope) ++ "/..") ∧
    ((¬ ∃ u v, (os_path_join cg_mount_point (pyStripChar '/' cg_vm_scope)).data =
        u ++ "emulator".data ++ v) →
      get_cgroup_path_v2 cg_mount_point cg_vm_scope =
        os_path_join cg_mount_point (pyStripChar '/' cg_vm_scope)) := by
  constructor
  · intro h
    unfold get_cgroup_path_v2
    exact if_pos ((hasSub_iff "emulator".data _).mpr h)
  · intro h
    unfold get_cgroup_path_v2
    exact if_neg (fun hc => h ((hasSub_iff "emulator".data _).mp hc))

/-- Witness for C7: a scope whose last segment is literally `emulator`
gets the `"/.."` suffix. -/
theorem C7_emulator_substring_rewrite_witness :
    get_cgroup_path_v2 "/sys/fs/cgroup" "/machine.slice/vm.scope/emulator" =
      os_path_join "/sys/fs/cgroup"
        (pyStripChar '/' "/machine.slice/vm.scope/emulator") ++ "/.." :=
  (C7_emulator_substring_rewrite "/sys/fs/cgroup"
      "/machine.slice/vm.scope/emulator").1
    ⟨"/sys/fs/cgroup/machine.slice/vm.scope/".data, [], by decide⟩

/-! ## C5 — v1 schedinfo sentinel canonicalization -/

/-- C5 counterexample: with every control file reading `"-1"`, the v1
schedinfo reader reports `"max"` for every key — including the non-quota
keys `global_period`, `vcpu_period`, `emulator_period` and `cpu_shares` —
because the `"-1"` pre-mapping is applied before the quota-only sentinel
check. -/
theorem C5_minus_one_mapped_for_all_keys :
    get_standardized_cgroup1_schedinfo "cg" ["vcpu0"] none (fun _ => "-1") =
      Except.ok [("cpu_shares", "max"), ("vcpu_period", "max"),
                 ("vcpu_quota", "max"), ("emulator_period", "max"),
                 ("emulator_quota", "max"), ("global_period", "max"),
                 ("global_quota", "max")] ∧
    ("max" : String) ≠ "-1" :=
  ⟨by rfl, by decide⟩

/-- C5 amended: the v1 scheduling reader maps `"-1"` to `"max"` for every
key; the two large sentinels `"18446744073709551"` and `"17592186044415"`
are additionally mapped to `"max"` for quota-type keys only; a non-quota
key passes any value other than `"-1"` through unchanged (after
stripping). -/
theorem C5_v1_sched_sentinel_normalization (cg_key v : String) :
    sched1_value cg_key "-1" = "max" ∧
    (pyContains cg_key "quota" = true →
      (pyStrip v = "18446744073709551" ∨ pyStrip v = "17592186044415") →
      sched1_value cg_key v = "max") ∧
    (pyContains cg_key "quota" = false → pyStrip v ≠ "-1" →
      sched1_value cg_key v = pyStrip v) := by
  refine ⟨?_, ?_, ?_⟩
  · simp [sched1_value, show pyStrip "-1" = "-1" from rfl]
  · intro hq hv
    rcases hv with hv | hv <;> simp [sched1_value, hq, hv]
  · intro hq hne
    simp [sched1_value, hq, hne]

/-- Witness for C5: a quota key at a large sentinel becomes `"max"`, a
period key passes its value through. -/
theorem C5_v1_sched_sentinel_normalization_witness :
    sched1_value "global_quota" "18446744073709551" = "max" ∧
    sched1_value "global_period" "100000" = "100000" := by
  constructor
  · exact (C5_v1_sched_sentinel_normalization "global_quota"
        "18446744073709551").2.1 (by decide) (Or.inl (by decide))
  · exact ((C5_v1_sched_sentinel_normalization "global_period" "100000").2.2
        (by decide) (by decide)).trans (by decide)

/-! ## C4 — v2 schedinfo token indices -/

/-- C4 counterexample: the v2 schedinfo reader performs no sentinel
translation at all — a `cpu.max` file reading `"-1 100000"` leaves every
quota key at `"-1"` instead of mapping the numeric sentinel to `"max"`. -/
theorem C4_v2_no_sentinel_mapping :
    get_standardized_cgroup2_schedinfo "cg" ["vcpu0"] none (fun _ => "-1 100000") =
      Except.ok [("cpu_shares", "-1"), ("vcpu_period", "100000"),
                 ("vcpu_quota", "-1"), ("emulator_period", "100000"),
                 ("emulator_quota", "-1"), ("global_period", "100000"),
                 ("global_quota", "-1")] ∧
    ("-1" : String) ≠ "max" :=
  ⟨by rfl, by decide⟩

/-- C4 amended: on cgroup v2, period-type keys receive token index 1 and
quota-type keys token index 0 of the whitespace-split file content, with
the tokens passed through unchanged — there is no `"-1"`-to-`"max"`
mapping in the v2 reader (the `cpu.max` quota token `"max"` comes from the
file's own literal). -/
theorem C4_v2_sched_token_indices (content : String → String)
    (w q1 p1 q2 p2 q3 p3 : String) (wrest : List String)
    (hw : pySplitWs (pyStrip (content "cg/cpu.weight")) = w :: wrest)
    (hv : pySplitWs (pyStrip (content "cg/vcpu0/cpu.max")) = [q1, p1])
    (he : pySplitWs (pyStrip (content "cg/emulator/cpu.max")) = [q2, p2])
    (hg : pySplitWs (pyStrip (content "cg/cpu.max")) = [q3, p3]) :
    get_standardized_cgroup2_schedinfo "cg" ["vcpu0"] none content =
      Except.ok [("cpu_shares", w), ("vcpu_period", p1), ("vcpu_quota", q1),
                 ("emulator_period", p2), ("emulator_quota", q2),
                 ("global_period", p3), ("global_quota", q3)] := by
  unfold get_standardized_cgroup2_schedinfo CGROUP_V2_SCHEDINFO_FILE_MAPPING
  simp only [List.foldlM_cons, List.foldlM_nil, Bind.bind, Except.bind,
    show substPlaceholders ["vcpu0"] none "cpu.weight" =
      Except.ok (some "cpu.weight") from rfl,
    show substPlaceholders ["vcpu0"] none "<vcpuX>/cpu.max" =
      Except.ok (some "vcpu0/cpu.max") from rfl,
    show substPlaceholders ["vcpu0"] none "emulator/cpu.max" =
      Except.ok (some "emulator/cpu.max") from rfl,
    show substPlaceholders ["vcpu0"] none "cpu.max" =
      Except.ok (some "cpu.max") from rfl,
    show substPlaceholders ["vcpu0"] none "<iothreadX>/cpu.max" =
      Except.ok none from rfl,
    show pySplitFirst "cg" "libvirt" = "cg" from rfl,
    show pyContains "cpu_shares" "period" = false from rfl,
    show pyContains "vcpu_period" "period" = true from rfl,
    show pyContains "vcpu_quota" "period" = false from rfl,
    show pyContains "emulator_period" "period" = true from rfl,
    show pyContains "emulator_quota" "period" = false from rfl,
    show pyContains "global_period" "period" = true from rfl,
    show pyContains "global_quota" "period" = false from rfl]
  simp [show os_path_join "cg" "cpu.weight" = "cg/cpu.weight" from rfl,
    show os_path_join "cg" "vcpu0/cpu.max" = "cg/vcpu0/cpu.max" from rfl,
    show os_path_join "cg" "emulator/cpu.max" = "cg/emulator/cpu.max" from rfl,
    show os_path_join "cg" "cpu.max" = "cg/cpu.max" from rfl,
    hw, hv, he, hg, alistSet, pure, Except.pure]

/-- Witness for C4 at `cpu.max` content `"max 100000"`: the claimed
example `global_period = "100000"`, `global_quota = "max"` holds. -/
theorem C4_v2_sched_token_indices_witness :
    get_standardized_cgroup2_schedinfo "cg" ["vcpu0"] none
        (fun f => if f = "cg/cpu.max" then "max 100000"
                  else if f = "cg/cpu.weight" then "100"
                  else "50000 100000") =
      Except.ok [("cpu_shares", "100"), ("vcpu_period", "100000"),
                 ("vcpu_quota", "50000"), ("emulator_period", "100000"),
                 ("emulator_quota", "50000"), ("global_period", "100000"),
                 ("global_quota", "max")] :=
  C4_v2_sched_token_indices
    (fun f => if f = "cg/cpu.max" then "max 100000"
              else if f = "cg/cpu.weight" then "100"
              else "50000 100000")
    "100" "50000" "100000" "50000" "100000" "max" "100000" []
    (by rfl) (by rfl) (by rfl) (by rfl)

/-! ## C6 — device identity resolution and the `None` device key -/

/-- C6 counterexample: when the device path does not resolve, the caller
does not skip the device — it stores a seeded entry under the Python
`None` key and writes the value into it. -/
theorem C6_none_device_entry_added :
    get_standardized_virsh_info (fun _ => none) "blkiotune"
        [("device_read_iops_sec", "/dev/sda,500")] =
      Except.ok (some [(CgKey.n0,
        CgVal.d [("rbps", "max"), ("wbps", "max"), ("riops", "500"),
                 ("wiops", "max")])]) := by rfl

/-- C6 amended: the Device Identity Resolver returns `None` when the path
does not exist and the `"major:minor"` string when it does; but the
blkiotune report branch does not skip an unresolved device — the entry is
keyed by `None` (seeded with the 4-key default map) and the value is
written into it. -/
theorem C6_device_identity_resolution (env : String → Option (Nat × Nat))
    (dev_path : String) :
    (env dev_path = none → get_dev_major_minor env dev_path = none) ∧
    (∀ ma mi, env dev_path = some (ma, mi) →
      get_dev_major_minor env dev_path =
        some (toString ma ++ ":" ++ toString mi)) ∧
    get_standardized_virsh_info (fun _ => none) "blkiotune"
        [("device_write_bytes_sec", "/dev/sdb,300")] =
      Except.ok (some [(CgKey.n0,
        CgVal.d [("rbps", "max"), ("wbps", "300"), ("riops", "max"),
                 ("wiops", "max")])]) := by
  refine ⟨?_, ?_, by rfl⟩
  · intro h
    unfold get_dev_major_minor
    rw [h]
  · intro ma mi h
    unfold get_dev_major_minor
    rw [h]

/-- Witness for C6: a nonexistent path resolves to `None`, an existing
device node resolves to its `"major:minor"` string. -/
theorem C6_device_identity_resolution_witness :
    get_dev_major_minor (fun p => if p = "/dev/sda" then some (8, 0) else none)
        "/dev/sdz" = none ∧
    get_dev_major_minor (fun p => if p = "/dev/sda" then some (8, 0) else none)
        "/dev/sda" = some "8:0" :=
  ⟨(C6_device_identity_resolution
      (fun p => if p = "/dev/sda" then some (8, 0) else none) "/dev/sdz").1
      (by rfl),
   ((C6_device_identity_resolution
      (fun p => if p = "/dev/sda" then some (8, 0) else none) "/dev/sda").2.1
      8 0 (by rfl)).trans (by rfl)⟩

end LibvirtCgroup
